import Mathlib

/-!
Verification development for the n8n schema-validator node.

The TypeScript source is shallowly embedded: JSON values become an inductive
tree, the AJV validator (an external capability: a compiled function returning
a boolean and exposing the raw diagnostics of its most recent call) becomes a
function from a JSON value to a boolean paired with the optional raw error
list, and the imperative per-item push loops of `executeSingleSchemaMode` and
`executeMultipleSchemaMode` become an indexed map over the item list followed
by an order-preserving partition into the valid and invalid output channels.
-/

namespace SchemaValidatorSpec

/-- JSON values as a tagged tree (records, schema data and diagnostics are all
untyped nested values at this layer).  Objects are association lists of
string keys, mirroring JS objects built by `JSON.parse`. -/
inductive Json where
  | null : Json
  | bool (b : Bool) : Json
  | num (n : Int) : Json
  | str (s : String) : Json
  | arr (elems : List Json) : Json
  | obj (fields : List (String × Json)) : Json

/-- `ValidationError` from `types.ts`: the uniform error shape.  `params` is a
string-keyed mapping of JSON values. -/
structure ValidationError where
  field : String
  message : String
  keyword : String
  params : List (String × Json)

/-- `ValidationResult` from `types.ts`. -/
structure ValidationResult where
  isValid : Bool
  errors : List ValidationError

/-- `MultiSchemaValidationResult` from `types.ts`. -/
structure MultiSchemaValidationResult where
  schemaName : String
  isValid : Bool
  errors : List ValidationError

/-- A raw AJV diagnostic (`ErrorObject`): `instancePath` is always a string
(possibly empty), `message` and `params` are optional in the AJV typings;
`keyword` is always present. -/
structure AjvError where
  instancePath : String
  message : Option String
  keyword : String
  params : Option (List (String × Json))

/-- An AJV `ValidateFunction`, modelled as the external capability it is: a
call on a data value returns the boolean verdict together with the `errors`
property as it reads immediately after that call (`none` models a
null/undefined `errors`). -/
structure ValidateFunction where
  run : Json → Bool × Option (List AjvError)

/-- JS `a || b` on a string `a`: the empty string is falsy. -/
def jsStrOr (a b : String) : String :=
  if a = "" then b else a

/-- JS `a || b` on an optional string `a`: undefined and the empty string are
falsy. -/
def jsOptStrOr (a : Option String) (b : String) : String :=
  match a with
  | none => b
  | some s => jsStrOr s b

/-- `transformValidationErrors` from `validator.ts`:
`validator.errors?.map((err) => ({field: err.instancePath || '/', message:
err.message || 'Validation failed', keyword: err.keyword, params: err.params
|| {}})) || []`.  The argument is the `errors` property read off the
validator. -/
def transformValidationErrors (errors : Option (List AjvError)) : List ValidationError :=
  match errors with
  | none => []
  | some es =>
      es.map (fun err =>
        { field := jsStrOr err.instancePath "/"
          message := jsOptStrOr err.message "Validation failed"
          keyword := err.keyword
          params := err.params.getD [] })

/-- `validateData` from `validator.ts`: run the compiled validator once, and
read its errors only on failure. -/
def validateData (validator : ValidateFunction) (data : Json) : ValidationResult :=
  let r := validator.run data
  let isValid := r.1
  let errors := if isValid then [] else transformValidationErrors r.2
  { isValid := isValid, errors := errors }

/-- `formatValidationErrorMessage` from `validator.ts`:
`errors.map((err) => err.field + ': ' + err.message).join(', ')`. -/
def formatValidationErrorMessage (errors : List ValidationError) : String :=
  String.intercalate ", " (errors.map (fun err => err.field ++ ": " ++ err.message))

/-! ### PathExtractor (`extractDataFromPath` in `dataExtractor.ts`) -/

/-- One segment of a split path after array-notation expansion: the JS code
keeps strings (key lookups) and numbers (array indices) in one list. -/
inductive PathPart where
  | key (k : String) : PathPart
  | idx (i : Nat) : PathPart
deriving DecidableEq, Repr

/-- JS regex `\w` without the unicode flag: ASCII letters, digits, underscore. -/
def isWordChar (c : Char) : Bool :=
  c.isAlpha || c.isDigit || c = '_'

/-- `parseInt(ds, 10)` on a non-empty all-digit string. -/
def digitsToNat (ds : List Char) : Nat :=
  ds.foldl (fun n c => 10 * n + (c.toNat - 48)) 0

/-- Match of the regex `^(\w+)\[(\d+)\]$` against one path segment.  Because
`\w` matches neither bracket, the greedy `\w+` is exactly the run of word
characters before the first non-word character. -/
def matchArrayPart (s : String) : Option (String × Nat) :=
  let cs := s.toList
  let w := cs.takeWhile isWordChar
  let rest := cs.drop w.length
  match rest with
  | '[' :: rest2 =>
      let ds := rest2.takeWhile Char.isDigit
      let rest3 := rest2.drop ds.length
      if w.isEmpty then none
      else if ds.isEmpty then none
      else
        match rest3 with
        | [']'] => some (String.mk w, digitsToNat ds)
        | _ => none
  | _ => none

/-- The `flatMap` body of `extractDataFromPath`: a segment matching the array
notation contributes the key and the numeric index, any other segment is kept
as a literal key. -/
def parsePathPart (s : String) : List PathPart :=
  match matchArrayPart s with
  | some (w, i) => [PathPart.key w, PathPart.idx i]
  | none => [PathPart.key s]

/-- JS `String.prototype.split` with a one-character separator, over the
character list: always returns at least one (possibly empty) piece, with empty
pieces between adjacent separators and at the ends, exactly as in JS. -/
def splitOnChar (sep : Char) : List Char → List (List Char)
  | [] => [[]]
  | c :: rest =>
      match splitOnChar sep rest with
      | [] => [[c]]
      | piece :: pieces =>
          if c = sep then [] :: piece :: pieces
          else (c :: piece) :: pieces

/-- `path.split('.').flatMap(...)` from `extractDataFromPath`. -/
def parsePath (path : String) : List PathPart :=
  ((splitOnChar '.' path.toList).map (fun cs => parsePathPart (String.mk cs))).flatten

/-- JS array index for a string key: `arr[k]` yields an element only when `k`
is the canonical decimal form of an in-range index (all digits, and equal to
the decimal rendering of its value, so "01" is not an index). -/
def canonicalIndex (k : String) : Option Nat :=
  let cs := k.toList
  if cs.isEmpty then none
  else if cs.all Char.isDigit then
    let i := digitsToNat cs
    if toString i = k then some i else none
  else none

/-- First-match association-list lookup; JS objects built from JSON have
unique keys, so first match is the JS property read. -/
def lookupField : List (String × Json) → String → Option Json
  | [], _ => none
  | (k, v) :: rest, key => if k = key then some v else lookupField rest key

/-- A key-segment step: `(current as Record<string, unknown>)[part]` guarded
by `typeof current === 'object'`.  Objects read their own property; arrays
(also `typeof 'object'` in JS) read a canonical numeric index; scalars and
strings fail the `typeof` guard.  `none` is JS `undefined`. -/
def getKey (c : Json) (k : String) : Option Json :=
  match c with
  | Json.obj fields => lookupField fields k
  | Json.arr elems =>
      match canonicalIndex k with
      | some i => elems.get? i
      | none => none
  | _ => none

/-- An index-segment step: `Array.isArray(current)` guard then `current[part]`.
Out-of-bounds reads are `undefined` (`none`). -/
def getPart (c : Json) : PathPart → Option Json
  | PathPart.idx i =>
      match c with
      | Json.arr elems => elems.get? i
      | _ => none
  | PathPart.key k => getKey c k

/-- The evaluation loop of `extractDataFromPath`: before consuming each
remaining segment the current value is checked for null/undefined (either
ends the walk with `undefined`); the value left after the last segment is
returned as is, so a walk may successfully end on `Json.null`. -/
def walkParts : Option Json → List PathPart → Option Json
  | cur, [] => cur
  | cur, p :: ps =>
      match cur with
      | none => none
      | some Json.null => none
      | some c => walkParts (getPart c p) ps

/-- `INodeExecutionData` as this node reads and writes it: the `json` payload
and an optional `binary` payload (modelled opaquely as a JSON value). -/
structure INodeExecutionData where
  json : Json
  binary : Option Json := none

/-- `extractDataFromPath` from `dataExtractor.ts`. -/
def extractDataFromPath (item : INodeExecutionData) (path : String) : Option Json :=
  walkParts (some item.json) (parsePath path)

/-! ### Single-schema mode (`extractCustomJsonData`, `extractDataToValidate`,
`executeSingleSchemaMode` in `dataExtractor.ts`) -/

/-- `DataSource` from `types.ts`. -/
inductive DataSource where
  | entireItem : DataSource
  | customJson : DataSource
deriving DecidableEq

/-- A `string | object` parameter value as TypeScript sees it. -/
inductive StrOrJson where
  | str (s : String) : StrOrJson
  | json (j : Json) : StrOrJson

/-- `extractCustomJsonData` from `dataExtractor.ts`: strings are decoded with
`JSON.parse` (an external capability, passed in as `jsonParse`; `Except.error`
models the raised `SyntaxError` message), already-structured values are
returned unchanged.  A decode failure is rethrown with the
`Invalid custom JSON: ` prefix. -/
def extractCustomJsonData (jsonParse : String → Except String Json) :
    StrOrJson → Except String Json
  | StrOrJson.str s =>
      match jsonParse s with
      | Except.ok v => Except.ok v
      | Except.error e => Except.error ("Invalid custom JSON: " ++ e)
  | StrOrJson.json j => Except.ok j

/-- JS `!customJsonParam` on a `string | object | undefined` parameter:
undefined, the empty string and the null object are the falsy cases. -/
def isFalsyParam : Option StrOrJson → Bool
  | none => true
  | some (StrOrJson.str s) => s == ""
  | some (StrOrJson.json Json.null) => true
  | some (StrOrJson.json _) => false

/-- The message thrown by `extractDataToValidate` for a missing custom value. -/
def customJsonRequiredMessage : String :=
  "Custom JSON is required when Data Source is \"Custom JSON\""

/-- `extractDataToValidate` from `dataExtractor.ts`: `Except.error` models the
thrown `Error` (its message).  For the custom-JSON source a falsy parameter
throws the missing-value error, otherwise the parameter is decoded; for the
entire-item source the item's `json` payload is returned. -/
def extractDataToValidate (jsonParse : String → Except String Json)
    (item : INodeExecutionData) (dataSource : DataSource)
    (customJsonParam : Option StrOrJson) : Except String Json :=
  match dataSource with
  | DataSource.customJson =>
      if isFalsyParam customJsonParam then Except.error customJsonRequiredMessage
      else
        match customJsonParam with
        | some p => extractCustomJsonData jsonParse p
        | none => Except.error customJsonRequiredMessage
  | DataSource.entireItem => Except.ok item.json

/-- The two output options read inside the per-item loops; `none` models an
option the user did not set. -/
structure OutputOptions where
  includeErrorDetails : Option Bool := none
  includeOriginalData : Option Bool := none

/-- `options.includeErrorDetails !== false`: only an explicit `false` disables
error details. -/
def errDetailsOn (opts : OutputOptions) : Bool :=
  match opts.includeErrorDetails with
  | some false => false
  | _ => true

/-- Truthiness of `options.includeOriginalData` (defaults to disabled). -/
def origDataOn (opts : OutputOptions) : Bool :=
  opts.includeOriginalData.getD false

/-- One output item of single-schema mode: a record forwarded unchanged on
the valid channel (with `pairedItem` set to its input index), or a diagnostic
record on the invalid channel.  `originalJson` is `some item.json` exactly
when the original fields are spread into the diagnostic;
`validationErrors` is `none` when the key is set to `undefined`. -/
inductive SingleOutput where
  | valid (json : Json) (binary : Option Json) (pairedItem : Nat) : SingleOutput
  | invalid (originalJson : Option Json)
      (validationErrors : Option (List ValidationError))
      (validationMessage : String) (binary : Option Json) (pairedItem : Nat) : SingleOutput

/-- The body of the per-item loop of `executeSingleSchemaMode`: the try-block
extracts the data and validates it; the catch-block (reached exactly when
`extractDataToValidate` throws) builds a one-element `parse` error list and
never attaches the binary payload. -/
def singleProcessItem (jsonParse : String → Except String Json)
    (validator : ValidateFunction) (dataSource : DataSource) (opts : OutputOptions)
    (itemIndex : Nat) (customJsonParam : Option StrOrJson)
    (item : INodeExecutionData) : SingleOutput :=
  match extractDataToValidate jsonParse item dataSource customJsonParam with
  | Except.error errorMessage =>
      SingleOutput.invalid
        (if origDataOn opts then some item.json else none)
        (some [{ field := "/", message := errorMessage, keyword := "parse", params := [] }])
        errorMessage none itemIndex
  | Except.ok dataToValidate =>
      let result := validateData validator dataToValidate
      if result.isValid then
        SingleOutput.valid item.json item.binary itemIndex
      else
        let errorMessage := formatValidationErrorMessage result.errors
        SingleOutput.invalid
          (if origDataOn opts then some item.json else none)
          (if errDetailsOn opts then some result.errors else none)
          errorMessage
          (if origDataOn opts then item.binary else none)
          itemIndex

/-- Valid-channel test for a single-mode output item. -/
def isValidSingle : SingleOutput → Bool
  | SingleOutput.valid _ _ _ => true
  | SingleOutput.invalid _ _ _ _ _ => false

/-- The in-order list of per-item outputs of `executeSingleSchemaMode`; the
custom-JSON parameter is re-read per item index (`customJsonOf`), and only
when the data source is the custom value. -/
def singleOutputs (jsonParse : String → Except String Json)
    (validator : ValidateFunction) (dataSource : DataSource) (opts : OutputOptions)
    (customJsonOf : Nat → Option StrOrJson)
    (items : List INodeExecutionData) : List SingleOutput :=
  items.enum.map (fun p =>
    singleProcessItem jsonParse validator dataSource opts p.1
      (if dataSource = DataSource.customJson then customJsonOf p.1 else none) p.2)

/-- `executeSingleSchemaMode` after the up-front schema parse/compile checks:
each loop iteration pushes its output item onto exactly one of the two
channels, so the channels are the order-preserving partition of the per-item
outputs. -/
def executeSingleSchemaMode (jsonParse : String → Except String Json)
    (validator : ValidateFunction) (dataSource : DataSource) (opts : OutputOptions)
    (customJsonOf : Nat → Option StrOrJson)
    (items : List INodeExecutionData) : List SingleOutput × List SingleOutput :=
  let outs := singleOutputs jsonParse validator dataSource opts customJsonOf items
  (outs.filter isValidSingle, outs.filter (fun o => !(isValidSingle o)))

/-! ### Multiple-schema mode (`executeMultipleSchemaMode` in
`dataExtractor.ts`) -/

/-- One entry of the `compiledSchemas` array built by
`executeMultipleSchemaMode` after the up-front parse/compile checks:
`dataPath` is `schemaItem.dataPath || ''`, so always a string. -/
structure CompiledSchema where
  name : String
  validator : ValidateFunction
  dataPath : String

/-- `matchMode` parameter. -/
inductive MatchMode where
  | all : MatchMode
  | any : MatchMode
deriving DecidableEq

/-- The synthetic per-schema result pushed when a non-empty `dataPath`
resolves to `undefined`. -/
def pathNotFoundResult (name dataPath : String) : MultiSchemaValidationResult :=
  { schemaName := name
    isValid := false
    errors := [{ field := dataPath
                 message := "Path \"" ++ dataPath ++ "\" not found in item"
                 keyword := "path"
                 params := [("path", Json.str dataPath)] }] }

/-- The body of the inner per-schema loop of `executeMultipleSchemaMode`: a
truthy (non-empty) `dataPath` is resolved first and an unresolved path yields
the synthetic result without touching the validator; otherwise the validator
runs on the resolved value or on the whole item. -/
def runSchemaOnItem (cs : CompiledSchema) (item : INodeExecutionData) :
    MultiSchemaValidationResult :=
  if cs.dataPath = "" then
    let result := validateData cs.validator item.json
    { schemaName := cs.name, isValid := result.isValid, errors := result.errors }
  else
    match extractDataFromPath item cs.dataPath with
    | none => pathNotFoundResult cs.name cs.dataPath
    | some dataToValidate =>
        let result := validateData cs.validator dataToValidate
        { schemaName := cs.name, isValid := result.isValid, errors := result.errors }

/-- `matchMode === 'all' ? schemaResults.every(r => r.isValid) :
schemaResults.some(r => r.isValid)`. -/
def combineResults (matchMode : MatchMode)
    (schemaResults : List MultiSchemaValidationResult) : Bool :=
  match matchMode with
  | MatchMode.all => schemaResults.all (fun r => r.isValid)
  | MatchMode.any => schemaResults.any (fun r => r.isValid)

/-- One output item of multiple-schema mode, mirroring `SingleOutput`; the
diagnostic record carries `validationResults` instead of `validationErrors`. -/
inductive MultiOutput where
  | valid (json : Json) (binary : Option Json) (pairedItem : Nat) : MultiOutput
  | invalid (originalJson : Option Json)
      (validationResults : Option (List MultiSchemaValidationResult))
      (validationMessage : String) (binary : Option Json) (pairedItem : Nat) : MultiOutput

/-- The body of the per-item loop of `executeMultipleSchemaMode`: collect one
result per schema in configured order, combine with the match mode, and on
failure build the diagnostic record whose message lists only the failing
schemas and whose `validationResults` payload is the full result list. -/
def multiProcessItem (schemas : List CompiledSchema) (matchMode : MatchMode)
    (opts : OutputOptions) (itemIndex : Nat) (item : INodeExecutionData) : MultiOutput :=
  let schemaResults := schemas.map (fun cs => runSchemaOnItem cs item)
  if combineResults matchMode schemaResults then
    MultiOutput.valid item.json item.binary itemIndex
  else
    let failedSchemas := schemaResults.filter (fun r => !r.isValid)
    let errorMessages := String.intercalate "; "
      (failedSchemas.map (fun r => "[" ++ r.schemaName ++ "] " ++
        formatValidationErrorMessage r.errors))
    MultiOutput.invalid
      (if origDataOn opts then some item.json else none)
      (if errDetailsOn opts then some schemaResults else none)
      errorMessages
      (if origDataOn opts then item.binary else none)
      itemIndex

/-- Valid-channel test for a multiple-mode output item. -/
def isValidMulti : MultiOutput → Bool
  | MultiOutput.valid _ _ _ => true
  | MultiOutput.invalid _ _ _ _ _ => false

/-- The in-order list of per-item outputs of `executeMultipleSchemaMode`. -/
def multiOutputs (schemas : List CompiledSchema) (matchMode : MatchMode)
    (opts : OutputOptions) (items : List INodeExecutionData) : List MultiOutput :=
  items.enum.map (fun p => multiProcessItem schemas matchMode opts p.1 p.2)

/-- `executeMultipleSchemaMode` after the up-front checks (non-empty schema
list, parse and compile): the two channels are the order-preserving partition
of the per-item outputs. -/
def executeMultipleSchemaMode (schemas : List CompiledSchema) (matchMode : MatchMode)
    (opts : OutputOptions) (items : List INodeExecutionData) :
    List MultiOutput × List MultiOutput :=
  let outs := multiOutputs schemas matchMode opts items
  (outs.filter isValidMulti, outs.filter (fun o => !(isValidMulti o)))

/-- The `validationResults` payload of a diagnostic record (`none` for a
valid-channel item). -/
def MultiOutput.resultsPayload : MultiOutput → Option (List MultiSchemaValidationResult)
  | MultiOutput.valid _ _ _ => none
  | MultiOutput.invalid _ results _ _ _ => results

/-- The `validationMessage` of a diagnostic record (`none` for a
valid-channel item). -/
def MultiOutput.diagMessage : MultiOutput → Option String
  | MultiOutput.valid _ _ _ => none
  | MultiOutput.invalid _ _ msg _ _ => some msg

/-- The input-order position attached to a single-mode output item. -/
def SingleOutput.pairedIndex : SingleOutput → Nat
  | SingleOutput.valid _ _ i => i
  | SingleOutput.invalid _ _ _ _ i => i

/-- The input-order position attached to a multiple-mode output item. -/
def MultiOutput.pairedIndex : MultiOutput → Nat
  | MultiOutput.valid _ _ i => i
  | MultiOutput.invalid _ _ _ _ i => i

/-! ### Concrete fixtures used by witnesses and counterexamples -/

/-- A compiled validator that accepts every value. -/
def passValidator : ValidateFunction :=
  ⟨fun _ => (true, none)⟩

/-- The raw diagnostic reported by `failValidator`. -/
def boomError : AjvError :=
  { instancePath := "/x", message := some "boom", keyword := "type", params := none }

/-- A compiled validator that rejects every value with one raw diagnostic. -/
def failValidator : ValidateFunction :=
  ⟨fun _ => (false, some [boomError])⟩

/-- Two whole-item schemas, the first passing and the second failing. -/
def passFailSchemas : List CompiledSchema :=
  [{ name := "pass", validator := passValidator, dataPath := "" },
   { name := "fail", validator := failValidator, dataPath := "" }]

/-- A sample input record. -/
def sampleItem : INodeExecutionData :=
  { json := Json.obj [("id", Json.num 1)], binary := none }

/-- A `JSON.parse` stand-in that rejects every string. -/
def rejectingParse : String → Except String Json :=
  fun _ => Except.error "Unexpected token"

/-! ### Evaluation lemmas for the path walk -/

/-- A walk from `undefined` stays `undefined`. -/
theorem walkParts_none : ∀ ps : List PathPart, walkParts none ps = none
  | [] => rfl
  | _ :: _ => rfl

/-- A walk from `null` with segments remaining halts with `undefined`. -/
theorem walkParts_null (p : PathPart) (ps : List PathPart) :
    walkParts (some Json.null) (p :: ps) = none := rfl

/-- The walk processes a concatenated segment list in two stages. -/
theorem walkParts_append (a b : List PathPart) (cur : Option Json) :
    walkParts cur (a ++ b) = walkParts (walkParts cur a) b := by
  induction a generalizing cur with
  | nil => rfl
  | cons p ps ih =>
      cases cur with
      | none => simp [walkParts_none]
      | some c =>
          cases c with
          | null => simp [walkParts_null, walkParts_none]
          | bool v => exact ih (getPart (Json.bool v) p)
          | num n => exact ih (getPart (Json.num n) p)
          | str s => exact ih (getPart (Json.str s) p)
          | arr es => exact ih (getPart (Json.arr es) p)
          | obj fs => exact ih (getPart (Json.obj fs) p)

/-- C3: path extraction yields `1` for `"a.b"` on `a:(b:1)`, the second
element for `"items[1]"` on a two-element `items` array, and `undefined`
(NotFound) for every root and every path that reaches `null` or an absent
value with segments still remaining; as a total function it never raises. -/
theorem extractDataFromPath_spec :
    extractDataFromPath ⟨Json.obj [("a", Json.obj [("b", Json.num 1)])], none⟩ "a.b" =
      some (Json.num 1)
    ∧ (∀ x y : Json,
        extractDataFromPath ⟨Json.obj [("items", Json.arr [x, y])], none⟩ "items[1]" = some y)
    ∧ (∀ (root : Json) (binary : Option Json) (path : String) (done rest : List PathPart),
        parsePath path = done ++ rest → rest ≠ [] →
        (walkParts (some root) done = none ∨ walkParts (some root) done = some Json.null) →
        extractDataFromPath ⟨root, binary⟩ path = none) := by
  refine ⟨rfl, fun x y => rfl, ?_⟩
  intro root binary path done rest hsplit hrest hhalt
  show walkParts (some root) (parsePath path) = none
  rw [hsplit, walkParts_append]
  cases rest with
  | nil => exact absurd rfl hrest
  | cons p ps =>
      cases hhalt with
      | inl h => rw [h]; exact walkParts_none _
      | inr h => rw [h]; exact walkParts_null p ps

/-- C3 witness: the halting case at a concrete input (a path continuing
through a `null`), alongside the concrete happy case. -/
theorem extractDataFromPath_spec_witness :
    extractDataFromPath ⟨Json.obj [("a", Json.null)], none⟩ "a.b" = none
    ∧ extractDataFromPath ⟨Json.obj [("a", Json.obj [("b", Json.num 1)])], none⟩ "a.b" =
      some (Json.num 1) :=
  ⟨extractDataFromPath_spec.2.2 (Json.obj [("a", Json.null)]) none "a.b"
      [PathPart.key "a"] [PathPart.key "b"] rfl (by decide) (Or.inr rfl),
   extractDataFromPath_spec.1⟩

/-- C4: in multiple-schema mode, a schema with a non-empty `dataPath` whose
extraction yields NotFound produces exactly the synthetic path result, and
the outcome does not depend on the schema's validator (it is never invoked). -/
theorem runSchemaOnItem_path_not_found (name dataPath : String)
    (v w : ValidateFunction) (item : INodeExecutionData)
    (hne : dataPath ≠ "") (hnf : extractDataFromPath item dataPath = none) :
    runSchemaOnItem ⟨name, v, dataPath⟩ item = pathNotFoundResult name dataPath
    ∧ runSchemaOnItem ⟨name, v, dataPath⟩ item = runSchemaOnItem ⟨name, w, dataPath⟩ item := by
  constructor <;> simp [runSchemaOnItem, hne, hnf]

/-- C4 witness: a missing path on a concrete item, once with each of two
different validators. -/
theorem runSchemaOnItem_path_not_found_witness :
    runSchemaOnItem ⟨"s", passValidator, "missing"⟩ sampleItem =
      pathNotFoundResult "s" "missing"
    ∧ runSchemaOnItem ⟨"s", passValidator, "missing"⟩ sampleItem =
      runSchemaOnItem ⟨"s", failValidator, "missing"⟩ sampleItem :=
  runSchemaOnItem_path_not_found "s" "missing" passValidator failValidator sampleItem
    (by decide) rfl

/-- C6: the errors of a `validateData` result are empty exactly when the
result is valid, provided the underlying validator reports at least one raw
diagnostic whenever it returns false. -/
theorem validateData_errors_empty_iff (validator : ValidateFunction) (data : Json)
    (h : (validator.run data).1 = false →
      ∃ e es, (validator.run data).2 = some (e :: es)) :
    ((validateData validator data).errors = [] ↔
      (validateData validator data).isValid = true) := by
  cases hv : (validator.run data).1 with
  | false =>
      obtain ⟨e, es, h2⟩ := h hv
      simp [validateData, hv, h2, transformValidationErrors]
  | true => simp [validateData, hv]

/-- C6 witness: the equivalence instantiated at the always-failing validator,
whose single raw diagnostic discharges the hypothesis. -/
theorem validateData_errors_empty_iff_witness :
    ((validateData failValidator sampleItem.json).errors = [] ↔
      (validateData failValidator sampleItem.json).isValid = true) :=
  validateData_errors_empty_iff failValidator sampleItem.json
    (fun _ => ⟨boomError, [], rfl⟩)

/-- C7: error normalization maps each raw diagnostic componentwise (pointer
with `/` fallback, message with `"Validation failed"` fallback, keyword,
params with empty fallback), absent raw diagnostics normalize to the empty
list, and formatting renders `field: message` joined by `", "`, with the
empty list rendering `""` and the two sample errors rendering as specified. -/
theorem transform_and_format_spec :
    (∀ errs : List AjvError, transformValidationErrors (some errs) =
      errs.map (fun err =>
        { field := if err.instancePath = "" then "/" else err.instancePath
          message :=
            match err.message with
            | none => "Validation failed"
            | some m => if m = "" then "Validation failed" else m
          keyword := err.keyword
          params := err.params.getD [] }))
    ∧ transformValidationErrors none = []
    ∧ (∀ errors : List ValidationError, formatValidationErrorMessage errors =
        String.intercalate ", " (errors.map (fun e => e.field ++ ": " ++ e.message)))
    ∧ formatValidationErrorMessage [] = ""
    ∧ formatValidationErrorMessage
        [{ field := "/name", message := "must be string", keyword := "type", params := [] },
         { field := "/age", message := "must be number", keyword := "type", params := [] }] =
      "/name: must be string, /age: must be number" :=
  ⟨fun _ => rfl, rfl, fun _ => rfl, rfl, rfl⟩

/-- C10: a falsy custom value (absent, or the empty string) makes
`extractDataToValidate` raise the missing-value error before any decoding; in
single mode the catch-branch turns it into an invalid record with one `parse`
error carrying that message, and the empty string is indistinguishable from
an absent value. -/
theorem emptyCustomJson_required_error (jsonParse : String → Except String Json)
    (validator : ValidateFunction) (opts : OutputOptions) (itemIndex : Nat)
    (item : INodeExecutionData) :
    extractDataToValidate jsonParse item DataSource.customJson (some (StrOrJson.str "")) =
      Except.error customJsonRequiredMessage
    ∧ extractDataToValidate jsonParse item DataSource.customJson none =
      Except.error customJsonRequiredMessage
    ∧ singleProcessItem jsonParse validator DataSource.customJson opts itemIndex
        (some (StrOrJson.str "")) item =
      SingleOutput.invalid (if origDataOn opts then some item.json else none)
        (some [{ field := "/", message := customJsonRequiredMessage,
                 keyword := "parse", params := [] }])
        customJsonRequiredMessage none itemIndex
    ∧ singleProcessItem jsonParse validator DataSource.customJson opts itemIndex
        (some (StrOrJson.str "")) item =
      singleProcessItem jsonParse validator DataSource.customJson opts itemIndex none item :=
  ⟨rfl, rfl, rfl, rfl⟩

/-! ### Partition structure of the two output channels -/

/-- Splitting a list by a boolean test and its negation loses no element. -/
theorem length_filter_partition {α : Type} (p : α → Bool) (l : List α) :
    (l.filter p).length + (l.filter (fun a => !(p a))).length = l.length := by
  induction l with
  | nil => rfl
  | cons a t ih =>
      cases h : p a <;> simp [List.filter_cons, h] <;> omega

/-- Every element of an index-tagged map comes from an input position. -/
theorem mem_enum_map {α β : Type} {l : List α} {g : Nat × α → β} {o : β}
    (h : o ∈ l.enum.map g) : ∃ i : Fin l.length, o = g (i.val, l.get i) := by
  rcases List.mem_map.mp h with ⟨⟨i, x⟩, hp, rfl⟩
  have hx : l[i]? = some x := List.mk_mem_enum_iff_getElem?.mp hp
  rcases List.getElem?_eq_some.mp hx with ⟨hi, hEq⟩
  exact ⟨⟨i, hi⟩, by simp [List.get_eq_getElem, hEq]⟩

/-- Any boolean sieve of an index-tagged map keeps the tags strictly
increasing, that is, keeps the input order. -/
theorem pairwise_filter_enum_map {α β : Type} (l : List α) (g : Nat × α → β)
    (proj : β → Nat) (hproj : ∀ (i : Nat) (x : α), proj (g (i, x)) = i) (q : β → Bool) :
    ((l.enum.map g).filter q).Pairwise (fun a b => proj a < proj b) := by
  apply List.Pairwise.sublist (List.filter_sublist _)
  rw [List.pairwise_map]
  have h0 : l.enum.Pairwise (fun a b => a.1 < b.1) := by
    have h1 := List.pairwise_lt_range l.length
    rw [← List.enum_map_fst l, List.pairwise_map] at h1
    exact h1
  exact List.Pairwise.imp
    (fun hab => by
      rename_i a b
      rcases a with ⟨i, x⟩
      rcases b with ⟨j, y⟩
      simpa [hproj] using hab) h0

/-- C9: after the up-front fatal checks, each input record contributes exactly
one output item on exactly one channel, so the channel lengths sum to the
batch length, in single mode and (given at least one schema) in multiple
mode. -/
theorem output_partition_lengths :
    (∀ (jsonParse : String → Except String Json) (validator : ValidateFunction)
       (dataSource : DataSource) (opts : OutputOptions)
       (customJsonOf : Nat → Option StrOrJson) (items : List INodeExecutionData),
       (executeSingleSchemaMode jsonParse validator dataSource opts customJsonOf items).1.length
         + (executeSingleSchemaMode jsonParse validator dataSource opts customJsonOf items).2.length
         = items.length)
    ∧ (∀ (schemas : List CompiledSchema) (matchMode : MatchMode) (opts : OutputOptions)
        (items : List INodeExecutionData), schemas ≠ [] →
        (executeMultipleSchemaMode schemas matchMode opts items).1.length
          + (executeMultipleSchemaMode schemas matchMode opts items).2.length
          = items.length) := by
  constructor
  · intro jp v ds opts cj items
    have h := length_filter_partition isValidSingle (singleOutputs jp v ds opts cj items)
    simpa [executeSingleSchemaMode, singleOutputs, List.enum_length] using h
  · intro schemas mm opts items _hne
    have h := length_filter_partition isValidMulti (multiOutputs schemas mm opts items)
    simpa [executeMultipleSchemaMode, multiOutputs, List.enum_length] using h

/-- C9 witness: a one-record batch in multiple mode with one schema. -/
theorem output_partition_lengths_witness :
    (executeMultipleSchemaMode passFailSchemas MatchMode.all {} [sampleItem]).1.length
      + (executeMultipleSchemaMode passFailSchemas MatchMode.all {} [sampleItem]).2.length
      = [sampleItem].length :=
  output_partition_lengths.2 passFailSchemas MatchMode.all {} [sampleItem] (by simp [passFailSchemas])

/-! ### C1: the all/any combinators decide the valid channel -/

/-- A multiple-mode output lands on the valid side exactly as the combined
verdict says. -/
theorem isValidMulti_multiProcessItem (schemas : List CompiledSchema) (matchMode : MatchMode)
    (opts : OutputOptions) (itemIndex : Nat) (item : INodeExecutionData) :
    isValidMulti (multiProcessItem schemas matchMode opts itemIndex item) =
      combineResults matchMode (schemas.map (fun cs => runSchemaOnItem cs item)) := by
  unfold multiProcessItem
  cases h : combineResults matchMode (schemas.map (fun cs => runSchemaOnItem cs item)) <;>
    simp [h, isValidMulti]

/-- C1: in multiple-schema mode, a record's output item sits on the valid
channel iff every per-schema result is valid (matchMode `all`), respectively
iff some per-schema result is valid (matchMode `any`). -/
theorem multi_matchMode_partition (schemas : List CompiledSchema) (matchMode : MatchMode)
    (opts : OutputOptions) (items : List INodeExecutionData) (i : Nat)
    (item : INodeExecutionData) (_hne : schemas ≠ []) (hitem : items[i]? = some item) :
    (multiProcessItem schemas matchMode opts i item ∈
        (executeMultipleSchemaMode schemas matchMode opts items).1)
    ↔ (match matchMode with
       | MatchMode.all => ∀ cs ∈ schemas, (runSchemaOnItem cs item).isValid = true
       | MatchMode.any => ∃ cs ∈ schemas, (runSchemaOnItem cs item).isValid = true) := by
  have hcomb : combineResults matchMode (schemas.map (fun cs => runSchemaOnItem cs item)) = true
      ↔ (match matchMode with
         | MatchMode.all => ∀ cs ∈ schemas, (runSchemaOnItem cs item).isValid = true
         | MatchMode.any => ∃ cs ∈ schemas, (runSchemaOnItem cs item).isValid = true) := by
    cases matchMode <;> simp [combineResults, List.all_eq_true, List.any_eq_true]
  constructor
  · intro hmem
    have hval := (List.mem_filter.mp (by simpa [executeMultipleSchemaMode] using hmem)).2
    rw [isValidMulti_multiProcessItem] at hval
    exact hcomb.mp hval
  · intro hcond
    have hval : isValidMulti (multiProcessItem schemas matchMode opts i item) = true := by
      rw [isValidMulti_multiProcessItem]; exact hcomb.mpr hcond
    have hmem0 : multiProcessItem schemas matchMode opts i item ∈
        multiOutputs schemas matchMode opts items :=
      List.mem_map.mpr ⟨(i, item), List.mk_mem_enum_iff_getElem?.mpr hitem, rfl⟩
    simpa [executeMultipleSchemaMode] using List.mem_filter.mpr ⟨hmem0, hval⟩

/-- C1 witness: with a single passing schema in `all` mode, the record's
output item is on the valid channel. -/
theorem multi_matchMode_partition_witness :
    multiProcessItem [⟨"pass", passValidator, ""⟩] MatchMode.all {} 0 sampleItem ∈
      (executeMultipleSchemaMode [⟨"pass", passValidator, ""⟩] MatchMode.all {} [sampleItem]).1 :=
  (multi_matchMode_partition [⟨"pass", passValidator, ""⟩] MatchMode.all {} [sampleItem] 0
      sampleItem (by simp) rfl).mpr
    (by
      intro cs hcs
      rw [List.mem_singleton.mp hcs]
      rfl)

/-! ### C2: shape of the multiple-mode diagnostic record -/

/-- C2 counterexample: with one passing and one failing schema in `all` mode,
the diagnostic record's `validationResults` payload holds both per-schema
results — in particular the passing schema's result (`isValid = true`) — not
only the failing ones. -/
theorem multi_diag_payload_counterexample :
    (multiProcessItem passFailSchemas MatchMode.all {} 0 sampleItem).resultsPayload =
      some [{ schemaName := "pass", isValid := true, errors := [] },
            { schemaName := "fail", isValid := false,
              errors := [{ field := "/x", message := "boom",
                           keyword := "type", params := [] }] }]
    ∧ (((multiProcessItem passFailSchemas MatchMode.all {} 0 sampleItem).resultsPayload.getD
        []).any (fun r => r.isValid)) = true :=
  ⟨rfl, rfl⟩

/-- C2 amended: on a record routed to the invalid channel, the
`validationResults` payload carries all per-schema results (when error
details are enabled), while the `validationMessage` aggregates only the
failing schemas' results, each rendered `[name] errors` and joined by
`"; "`. -/
theorem multi_diag_record_shape (schemas : List CompiledSchema) (matchMode : MatchMode)
    (opts : OutputOptions) (itemIndex : Nat) (item : INodeExecutionData)
    (hinv : combineResults matchMode (schemas.map (fun cs => runSchemaOnItem cs item)) = false) :
    (multiProcessItem schemas matchMode opts itemIndex item).resultsPayload =
      (if errDetailsOn opts then some (schemas.map (fun cs => runSchemaOnItem cs item))
       else none)
    ∧ (multiProcessItem schemas matchMode opts itemIndex item).diagMessage =
      some (String.intercalate "; "
        (((schemas.map (fun cs => runSchemaOnItem cs item)).filter (fun r => !r.isValid)).map
          (fun r => "[" ++ r.schemaName ++ "] " ++ formatValidationErrorMessage r.errors))) := by
  constructor <;>
    simp [multiProcessItem, hinv, MultiOutput.resultsPayload, MultiOutput.diagMessage]

/-- C2 witness: the amended shape at the one-passing/one-failing input. -/
theorem multi_diag_record_shape_witness :
    (multiProcessItem passFailSchemas MatchMode.all {} 0 sampleItem).resultsPayload =
      (if errDetailsOn {} then
        some (passFailSchemas.map (fun cs => runSchemaOnItem cs sampleItem))
       else none)
    ∧ (multiProcessItem passFailSchemas MatchMode.all {} 0 sampleItem).diagMessage =
      some (String.intercalate "; "
        (((passFailSchemas.map (fun cs => runSchemaOnItem cs sampleItem)).filter
            (fun r => !r.isValid)).map
          (fun r => "[" ++ r.schemaName ++ "] " ++ formatValidationErrorMessage r.errors))) :=
  multi_diag_record_shape passFailSchemas MatchMode.all {} 0 sampleItem rfl

/-! ### C5: custom-JSON decode failure is a local, per-record failure -/

/-- C5: in single mode with the custom-value source, a record whose custom
value is a non-empty string rejected by `JSON.parse` becomes an invalid-
channel diagnostic with a single `parse` error; in the batch, position `i`
carries exactly that diagnostic, and the outputs of all other positions do
not depend on position `i`'s custom value. -/
theorem single_customJson_parse_failure (jsonParse : String → Except String Json)
    (validator : ValidateFunction) (opts : OutputOptions) (i : Nat) (s e : String)
    (hs : s ≠ "") (hp : jsonParse s = Except.error e) :
    (∀ item : INodeExecutionData,
      singleProcessItem jsonParse validator DataSource.customJson opts i
          (some (StrOrJson.str s)) item =
        SingleOutput.invalid (if origDataOn opts then some item.json else none)
          (some [{ field := "/", message := "Invalid custom JSON: " ++ e,
                   keyword := "parse", params := [] }])
          ("Invalid custom JSON: " ++ e) none i)
    ∧ (∀ (items : List INodeExecutionData) (item : INodeExecutionData)
        (customJsonOf : Nat → Option StrOrJson),
        items[i]? = some item → customJsonOf i = some (StrOrJson.str s) →
        (singleOutputs jsonParse validator DataSource.customJson opts customJsonOf items)[i]? =
          some (SingleOutput.invalid (if origDataOn opts then some item.json else none)
            (some [{ field := "/", message := "Invalid custom JSON: " ++ e,
                     keyword := "parse", params := [] }])
            ("Invalid custom JSON: " ++ e) none i))
    ∧ (∀ customJsonOf altCustomJsonOf : Nat → Option StrOrJson,
        (∀ j, j ≠ i → customJsonOf j = altCustomJsonOf j) →
        ∀ (j : Nat) (item : INodeExecutionData), j ≠ i →
          singleProcessItem jsonParse validator DataSource.customJson opts j
              (customJsonOf j) item =
            singleProcessItem jsonParse validator DataSource.customJson opts j
              (altCustomJsonOf j) item) := by
  have hfalsy : isFalsyParam (some (StrOrJson.str s)) = false := by
    simp [isFalsyParam, hs]
  have hext : ∀ item : INodeExecutionData,
      extractDataToValidate jsonParse item DataSource.customJson (some (StrOrJson.str s)) =
        Except.error ("Invalid custom JSON: " ++ e) := by
    intro item
    simp [extractDataToValidate, hfalsy, extractCustomJsonData, hp]
  refine ⟨fun item => ?_, fun items item customJsonOf hitem hcj => ?_,
    fun customJsonOf altCustomJsonOf hagree j item hj => ?_⟩
  · simp [singleProcessItem, hext]
  · unfold singleOutputs
    rw [List.getElem?_map, List.getElem?_enum, hitem]
    simp [hcj, singleProcessItem, hext]
  · rw [hagree j hj]

/-- C5 witness: a concrete rejected custom value on a concrete record. -/
theorem single_customJson_parse_failure_witness :
    singleProcessItem rejectingParse passValidator DataSource.customJson {} 0
        (some (StrOrJson.str "nope")) sampleItem =
      SingleOutput.invalid none
        (some [{ field := "/", message := "Invalid custom JSON: Unexpected token",
                 keyword := "parse", params := [] }])
        "Invalid custom JSON: Unexpected token" none 0 :=
  (single_customJson_parse_failure rejectingParse passValidator {} 0 "nope" "Unexpected token"
    (by decide) rfl).1 sampleItem

/-! ### C8: frame and order of the two channels -/

/-- The valid channel of single mode is the sieve of the per-item outputs. -/
theorem executeSingle_fst (jsonParse : String → Except String Json)
    (validator : ValidateFunction) (dataSource : DataSource) (opts : OutputOptions)
    (customJsonOf : Nat → Option StrOrJson) (items : List INodeExecutionData) :
    (executeSingleSchemaMode jsonParse validator dataSource opts customJsonOf items).1 =
      (singleOutputs jsonParse validator dataSource opts customJsonOf items).filter
        isValidSingle := rfl

/-- The invalid channel of single mode is the complementary sieve. -/
theorem executeSingle_snd (jsonParse : String → Except String Json)
    (validator : ValidateFunction) (dataSource : DataSource) (opts : OutputOptions)
    (customJsonOf : Nat → Option StrOrJson) (items : List INodeExecutionData) :
    (executeSingleSchemaMode jsonParse validator dataSource opts customJsonOf items).2 =
      (singleOutputs jsonParse validator dataSource opts customJsonOf items).filter
        (fun o => !(isValidSingle o)) := rfl

/-- The valid channel of multiple mode is the sieve of the per-item outputs. -/
theorem executeMultiple_fst (schemas : List CompiledSchema) (matchMode : MatchMode)
    (opts : OutputOptions) (items : List INodeExecutionData) :
    (executeMultipleSchemaMode schemas matchMode opts items).1 =
      (multiOutputs schemas matchMode opts items).filter isValidMulti := rfl

/-- The invalid channel of multiple mode is the complementary sieve. -/
theorem executeMultiple_snd (schemas : List CompiledSchema) (matchMode : MatchMode)
    (opts : OutputOptions) (items : List INodeExecutionData) :
    (executeMultipleSchemaMode schemas matchMode opts items).2 =
      (multiOutputs schemas matchMode opts items).filter
        (fun o => !(isValidMulti o)) := rfl

/-- Every single-mode output carries the index of the record it came from. -/
theorem pairedIndex_singleProcessItem (jsonParse : String → Except String Json)
    (validator : ValidateFunction) (dataSource : DataSource) (opts : OutputOptions)
    (itemIndex : Nat) (customJsonParam : Option StrOrJson) (item : INodeExecutionData) :
    (singleProcessItem jsonParse validator dataSource opts itemIndex customJsonParam
      item).pairedIndex = itemIndex := by
  unfold singleProcessItem
  cases hx : extractDataToValidate jsonParse item dataSource customJsonParam with
  | error e => simp [SingleOutput.pairedIndex]
  | ok d =>
      cases hv : (validateData validator d).isValid <;>
        simp [hv, SingleOutput.pairedIndex]

/-- Every multiple-mode output carries the index of the record it came from. -/
theorem pairedIndex_multiProcessItem (schemas : List CompiledSchema) (matchMode : MatchMode)
    (opts : OutputOptions) (itemIndex : Nat) (item : INodeExecutionData) :
    (multiProcessItem schemas matchMode opts itemIndex item).pairedIndex = itemIndex := by
  unfold multiProcessItem
  cases h : combineResults matchMode (schemas.map (fun cs => runSchemaOnItem cs item)) <;>
    simp [h, MultiOutput.pairedIndex]

/-- A single-mode output is either the record forwarded unchanged (valid
side) or an invalid-side item. -/
theorem singleProcessItem_cases (jsonParse : String → Except String Json)
    (validator : ValidateFunction) (dataSource : DataSource) (opts : OutputOptions)
    (itemIndex : Nat) (customJsonParam : Option StrOrJson) (item : INodeExecutionData) :
    (singleProcessItem jsonParse validator dataSource opts itemIndex customJsonParam item =
        SingleOutput.valid item.json item.binary itemIndex
      ∧ isValidSingle (singleProcessItem jsonParse validator dataSource opts itemIndex
          customJsonParam item) = true)
    ∨ isValidSingle (singleProcessItem jsonParse validator dataSource opts itemIndex
        customJsonParam item) = false := by
  unfold singleProcessItem
  cases hx : extractDataToValidate jsonParse item dataSource customJsonParam with
  | error e => right; rfl
  | ok d =>
      cases hv : (validateData validator d).isValid with
      | false => right; simp [hv, isValidSingle]
      | true => left; constructor <;> simp [hv, isValidSingle]

/-- A multiple-mode output is either the record forwarded unchanged (valid
side) or an invalid-side item. -/
theorem multiProcessItem_cases (schemas : List CompiledSchema) (matchMode : MatchMode)
    (opts : OutputOptions) (itemIndex : Nat) (item : INodeExecutionData) :
    (multiProcessItem schemas matchMode opts itemIndex item =
        MultiOutput.valid item.json item.binary itemIndex
      ∧ isValidMulti (multiProcessItem schemas matchMode opts itemIndex item) = true)
    ∨ isValidMulti (multiProcessItem schemas matchMode opts itemIndex item) = false := by
  unfold multiProcessItem
  cases h : combineResults matchMode (schemas.map (fun cs => runSchemaOnItem cs item)) with
  | false => right; simp [h, isValidMulti]
  | true => left; constructor <;> simp [h, isValidMulti]

/-- A successful extraction and validation put the output on the valid side. -/
theorem isValidSingle_of_ok_valid (jsonParse : String → Except String Json)
    (validator : ValidateFunction) (dataSource : DataSource) (opts : OutputOptions)
    (itemIndex : Nat) (customJsonParam : Option StrOrJson) (item : INodeExecutionData)
    (d : Json)
    (hx : extractDataToValidate jsonParse item dataSource customJsonParam = Except.ok d)
    (hv : (validateData validator d).isValid = true) :
    isValidSingle (singleProcessItem jsonParse validator dataSource opts itemIndex
      customJsonParam item) = true := by
  unfold singleProcessItem
  rw [hx]
  simp [hv, isValidSingle]

/-- C8: in both modes, a record that validates successfully is emitted on the
valid channel with its `json` and `binary` payloads unchanged and its input
position attached; every valid-channel item is such an unchanged record; and
both channels keep strictly increasing input positions, that is, input
order. -/
theorem outputs_frame_and_order :
    (∀ (jsonParse : String → Except String Json) (validator : ValidateFunction)
       (dataSource : DataSource) (opts : OutputOptions)
       (customJsonOf : Nat → Option StrOrJson) (items : List INodeExecutionData),
      (∀ o ∈ (executeSingleSchemaMode jsonParse validator dataSource opts customJsonOf
          items).1,
        ∃ i : Fin items.length,
          o = SingleOutput.valid (items.get i).json (items.get i).binary i.val)
      ∧ (∀ (i : Nat) (item : INodeExecutionData) (d : Json),
          items[i]? = some item →
          extractDataToValidate jsonParse item dataSource
            (if dataSource = DataSource.customJson then customJsonOf i else none) =
              Except.ok d →
          (validateData validator d).isValid = true →
          SingleOutput.valid item.json item.binary i ∈
            (executeSingleSchemaMode jsonParse validator dataSource opts customJsonOf items).1)
      ∧ (executeSingleSchemaMode jsonParse validator dataSource opts customJsonOf
          items).1.Pairwise (fun a b => a.pairedIndex < b.pairedIndex)
      ∧ (executeSingleSchemaMode jsonParse validator dataSource opts customJsonOf
          items).2.Pairwise (fun a b => a.pairedIndex < b.pairedIndex))
    ∧ (∀ (schemas : List CompiledSchema) (matchMode : MatchMode) (opts : OutputOptions)
        (items : List INodeExecutionData),
      (∀ o ∈ (executeMultipleSchemaMode schemas matchMode opts items).1,
        ∃ i : Fin items.length,
          o = MultiOutput.valid (items.get i).json (items.get i).binary i.val)
      ∧ (∀ (i : Nat) (item : INodeExecutionData),
          items[i]? = some item →
          combineResults matchMode (schemas.map (fun cs => runSchemaOnItem cs item)) = true →
          MultiOutput.valid item.json item.binary i ∈
            (executeMultipleSchemaMode schemas matchMode opts items).1)
      ∧ (executeMultipleSchemaMode schemas matchMode opts
          items).1.Pairwise (fun a b => a.pairedIndex < b.pairedIndex)
      ∧ (executeMultipleSchemaMode schemas matchMode opts
          items).2.Pairwise (fun a b => a.pairedIndex < b.pairedIndex)) := by
  constructor
  · intro jp v ds opts cj items
    refine ⟨?_, ?_, ?_, ?_⟩
    · intro o hmem
      rw [executeSingle_fst] at hmem
      have hval := (List.mem_filter.mp hmem).2
      have hin := List.mem_of_mem_filter hmem
      rcases mem_enum_map hin with ⟨i, rfl⟩
      rcases singleProcessItem_cases jp v ds opts i.val
          (if ds = DataSource.customJson then cj i.val else none) (items.get i) with
        hok | hbad
      · exact ⟨i, hok.1⟩
      · rw [hval] at hbad
        exact absurd hbad (by simp)
    · intro i item d hitem hx hv
      have hval := isValidSingle_of_ok_valid jp v ds opts i
        (if ds = DataSource.customJson then cj i else none) item d hx hv
      rcases singleProcessItem_cases jp v ds opts i
          (if ds = DataSource.customJson then cj i else none) item with hok | hbad
      · rw [executeSingle_fst, ← hok.1]
        refine List.mem_filter.mpr ⟨?_, hval⟩
        exact List.mem_map.mpr ⟨(i, item), List.mk_mem_enum_iff_getElem?.mpr hitem, rfl⟩
      · rw [hval] at hbad
        exact absurd hbad (by simp)
    · rw [executeSingle_fst]
      exact pairwise_filter_enum_map items _ SingleOutput.pairedIndex
        (fun i x => pairedIndex_singleProcessItem jp v ds opts i _ x) _
    · rw [executeSingle_snd]
      exact pairwise_filter_enum_map items _ SingleOutput.pairedIndex
        (fun i x => pairedIndex_singleProcessItem jp v ds opts i _ x) _
  · intro schemas mm opts items
    refine ⟨?_, ?_, ?_, ?_⟩
    · intro o hmem
      rw [executeMultiple_fst] at hmem
      have hval := (List.mem_filter.mp hmem).2
      have hin := List.mem_of_mem_filter hmem
      rcases mem_enum_map hin with ⟨i, rfl⟩
      rcases multiProcessItem_cases schemas mm opts i.val (items.get i) with hok | hbad
      · exact ⟨i, hok.1⟩
      · rw [hval] at hbad
        exact absurd hbad (by simp)
    · intro i item hitem hcomb
      have hval : isValidMulti (multiProcessItem schemas mm opts i item) = true := by
        rw [isValidMulti_multiProcessItem]; exact hcomb
      rcases multiProcessItem_cases schemas mm opts i item with hok | hbad
      · rw [executeMultiple_fst, ← hok.1]
        refine List.mem_filter.mpr ⟨?_, hval⟩
        exact List.mem_map.mpr ⟨(i, item), List.mk_mem_enum_iff_getElem?.mpr hitem, rfl⟩
      · rw [hval] at hbad
        exact absurd hbad (by simp)
    · rw [executeMultiple_fst]
      exact pairwise_filter_enum_map items _ MultiOutput.pairedIndex
        (fun i x => pairedIndex_multiProcessItem schemas mm opts i x) _
    · rw [executeMultiple_snd]
      exact pairwise_filter_enum_map items _ MultiOutput.pairedIndex
        (fun i x => pairedIndex_multiProcessItem schemas mm opts i x) _

/-- C8 witness: a concrete record that validates successfully is on the valid
channel unchanged. -/
theorem outputs_frame_and_order_witness :
    SingleOutput.valid sampleItem.json sampleItem.binary 0 ∈
      (executeSingleSchemaMode rejectingParse passValidator DataSource.entireItem {}
        (fun _ => none) [sampleItem]).1 :=
  (outputs_frame_and_order.1 rejectingParse passValidator DataSource.entireItem {}
    (fun _ => none) [sampleItem]).2.1 0 sampleItem sampleItem.json rfl rfl rfl

end SchemaValidatorSpec
